import Mathlib

/-!
Verification of the selectivity-analysis core
(`datafusion/physical-expr/src/analysis.rs`).

The definitions below are a shallow embedding of that file. The core
functions (`AnalysisContext`, `ExprBoundaries`, `try_from_column`,
`try_from_statistics`, `analyze`, `shrink_boundaries`,
`calculate_selectivity`) are translated directly from the Rust source.
External collaborators that the source consumes but that are not part of
the analysed sources (the interval type, scalar values, column statistics,
the propagation engine, `collect_columns`, `cardinality_ratio`) are
modelled from the specification of their contract; each such definition
carries a doc comment starting with `Modelled from the spec:`.

Floating-point selectivities are modelled as rational numbers: the only
arithmetic performed by this file on selectivities is multiplication of
ratios and the constants 0 and 1.
-/

namespace DFAnalysis

/-- Modelled from the spec: the scalar-value representation
(`datafusion_common::ScalarValue`, not under the analysed sources). Only
the variants that the analysis code inspects are needed: booleans (matched
on by `calculate_selectivity`) and a representative numeric type, plus a
string type, for column domains. Each variant carries an `Option`, the
`None` case being the type's "empty/null" scalar. -/
inductive ScalarValue where
  | Boolean : Option Bool → ScalarValue
  | Int64 : Option Int → ScalarValue
  | Utf8 : Option String → ScalarValue
deriving DecidableEq, Repr

/-- Modelled from the spec: the schema data-type tags
(`arrow::datatypes::DataType`, not under the analysed sources).
`Unsupported` stands for the data types from which no default/empty
scalar can be produced. -/
inductive DataType where
  | Boolean : DataType
  | Int64 : DataType
  | Utf8 : DataType
  | Unsupported : String → DataType
deriving DecidableEq, Repr

/-- Modelled from the spec: `ScalarValue::try_from(&DataType)` (from
`datafusion_common`, not under the analysed sources) produces the
type-appropriate empty/null scalar and fails with a conversion error for
data types that cannot produce one. -/
def ScalarValue.tryFrom : DataType → Except String ScalarValue
  | .Boolean => .ok (.Boolean none)
  | .Int64 => .ok (.Int64 none)
  | .Utf8 => .ok (.Utf8 none)
  | .Unsupported t => .error ("Cannot create an empty scalar from data type " ++ t)

/-- Modelled from the spec: the tri-state precision wrapper
(`datafusion_common::stats::Precision`, not under the analysed sources):
Exact, Inexact, or Absent. -/
inductive Precision (α : Type) where
  | Exact : α → Precision α
  | Inexact : α → Precision α
  | Absent : Precision α
deriving DecidableEq, Repr

/-- Modelled from the spec: `Precision::get_value` exposes the carried
value when it is exact or inexact, and nothing when absent. -/
def Precision.get_value : Precision α → Option α
  | .Exact v => some v
  | .Inexact v => some v
  | .Absent => none

/-- Modelled from the spec: one endpoint of an interval
(`crate::intervals::IntervalBound`, not under the analysed sources): a
scalar value together with an openness flag. -/
structure IntervalBound where
  value : ScalarValue
  open_ : Bool
deriving DecidableEq, Repr

/-- Modelled from the spec: `IntervalBound::new_closed` builds a closed
(inclusive) endpoint. -/
def IntervalBound.new_closed (value : ScalarValue) : IntervalBound :=
  { value := value, open_ := false }

/-- Modelled from the spec: a value interval
(`crate::intervals::Interval`, not under the analysed sources): a lower
and an upper endpoint. -/
structure Interval where
  lower : IntervalBound
  upper : IntervalBound
deriving DecidableEq, Repr

/-- Modelled from the spec: `Interval::new`. -/
def Interval.new (lower upper : IntervalBound) : Interval :=
  { lower := lower, upper := upper }

/-- Modelled from the spec: the value count ("width") of an interval, as
used by the cardinality ratio. It is computable for closed intervals over
a concrete integral domain and fails otherwise (incomparable or malformed
interval pair). -/
def Interval.cardinality (iv : Interval) : Except String ℚ :=
  match iv.lower, iv.upper with
  | { value := .Int64 (some a), open_ := false },
    { value := .Int64 (some b), open_ := false } =>
      .ok (max 0 ((b : ℚ) - (a : ℚ) + 1))
  | _, _ => .error "Cardinality cannot be computed for the given interval"

/-- Modelled from the spec: `cardinality_ratio` (from `crate::intervals`,
not under the analysed sources) compares a narrowed interval with its
original: a column whose interval did not shrink contributes a ratio of
1, and otherwise the ratio of the refined interval's value count to the
original's, clamped into [0, 1]; it fails when a count cannot be
computed. -/
def cardinality_ratio (initial_interval final_interval : Interval) :
    Except String ℚ :=
  if final_interval = initial_interval then .ok 1
  else
    match Interval.cardinality initial_interval,
          Interval.cardinality final_interval with
    | .ok ci, .ok cf => if ci = 0 then .ok 1 else .ok (min 1 (max 0 (cf / ci)))
    | .error e, _ => .error e
    | _, .error e => .error e

/-- Modelled from the spec: a column identity
(`crate::expressions::Column`, not under the analysed sources): a name
together with the ordinal position in the schema. Equality compares both
(name and ordinal must match). -/
structure Column where
  name : String
  index : Nat
deriving DecidableEq, Repr

/-- Modelled from the spec: `Column::new`. -/
def Column.new (name : String) (index : Nat) : Column :=
  { name := name, index := index }

/-- Modelled from the spec: a per-column statistics record
(`datafusion_common::ColumnStatistics`, not under the analysed sources):
optional min value, optional max value, null count and a distinct count,
each with an explicit exactness tag. -/
structure ColumnStatistics where
  null_count : Precision Nat
  max_value : Precision ScalarValue
  min_value : Precision ScalarValue
  distinct_count : Precision Nat
deriving DecidableEq, Repr

/-- Modelled from the spec: a schema field (`arrow::datatypes::Field`,
not under the analysed sources): a name and a data type. -/
structure Field where
  name : String
  data_type : DataType
deriving DecidableEq, Repr

/-- Modelled from the spec: a schema (`arrow::datatypes::Schema`, not
under the analysed sources): an ordered field list. -/
structure Schema where
  fields : List Field
deriving DecidableEq, Repr

/-- Modelled from the spec: the physical-expression tree
(`crate::PhysicalExpr`, not under the analysed sources): leaves are
column references or literals, inner nodes combine sub-expressions with
an operator. Only the "is this sub-expression a plain column reference"
distinction matters to the analysis code (its dynamic downcast). -/
inductive PhysicalExpr where
  | column : Column → PhysicalExpr
  | literal : ScalarValue → PhysicalExpr
  | binary : PhysicalExpr → String → PhysicalExpr → PhysicalExpr
deriving DecidableEq, Repr

/-- Modelled from the spec: `collect_columns` (from `crate::utils`, not
under the analysed sources) collects every leaf sub-expression that is a
plain column reference, without duplicates. -/
def collect_columns : PhysicalExpr → List Column
  | .column c => [c]
  | .literal _ => []
  | .binary l _ r =>
      collect_columns l ++
        (collect_columns r).filter (fun c => c ∉ collect_columns l)

/-- Modelled from the spec: the three propagation outcomes
(`crate::intervals::cp_solver::PropagationResult`, not under the analysed
sources). -/
inductive PropagationResult where
  | Success : PropagationResult
  | Infeasible : PropagationResult
  | CannotPropagate : PropagationResult
deriving DecidableEq, Repr

/-- Modelled from the spec: the propagation graph after `update_ranges`
has run: a node lookup (`gather_node_indices`) and a pure by-index
interval read (`get_interval`), both valid once propagation finished. -/
structure PropagatedGraph where
  gather_node_indices : List PhysicalExpr → List (PhysicalExpr × Nat)
  get_interval : Nat → Interval

/-- Modelled from the spec: the external interval-propagation engine
(`crate::intervals::ExprIntervalGraph`, not under the analysed sources),
as a black box satisfying the contract of the spec: a node lookup mapping
sub-expressions to graph node indices, and `update_ranges`, which seeds
the given node intervals, propagates, and either fails or reports a
`PropagationResult` together with the propagated graph state that
subsequent `get_interval` reads observe. -/
structure ExprIntervalGraph where
  gather_node_indices : List PhysicalExpr → List (PhysicalExpr × Nat)
  update_ranges :
    List (Nat × Interval) → Except String (PropagationResult × PropagatedGraph)

/-- Represents the boundaries of the resulting value from a physical
expression: column identity, current interval, and distinct count.
Translated from `ExprBoundaries` in `analysis.rs`. -/
structure ExprBoundaries where
  column : Column
  interval : Interval
  distinct_count : Precision Nat
deriving DecidableEq, Repr

/-- The shared context used during the analysis of an expression: the
known column boundaries, ordered by the index of the column in the
current schema, plus the estimated selectivity (between 0 and 1), if
computed. Translated from `AnalysisContext` in `analysis.rs`. -/
structure AnalysisContext where
  boundaries : List ExprBoundaries
  selectivity : Option ℚ
deriving DecidableEq, Repr

/-- `AnalysisContext::new`: boundaries as given, selectivity unset. -/
def AnalysisContext.new (boundaries : List ExprBoundaries) : AnalysisContext :=
  { boundaries := boundaries, selectivity := none }

/-- `AnalysisContext::with_selectivity`: set the selectivity field. -/
def AnalysisContext.with_selectivity (ctx : AnalysisContext) (selectivity : ℚ) :
    AnalysisContext :=
  { ctx with selectivity := some selectivity }

/-- `ExprBoundaries::try_from_column`: build the boundaries of one column
from its statistics. The Rust source indexes `schema.fields()[col_index]`,
which panics when the index is out of range; the panic is embedded as the
error case of the first match. -/
def ExprBoundaries.try_from_column (schema : Schema)
    (col_stats : ColumnStatistics) (col_index : Nat) :
    Except String ExprBoundaries :=
  match schema.fields[col_index]? with
  | none => .error "index out of bounds: no schema field at the column index"
  | some field =>
    match ScalarValue.tryFrom field.data_type with
    | .error e => .error e
    | .ok empty_field =>
      .ok { column := Column.new field.name col_index
            interval := Interval.new
              (IntervalBound.new_closed
                ((Precision.get_value col_stats.min_value).getD empty_field))
              (IntervalBound.new_closed
                ((Precision.get_value col_stats.max_value).getD empty_field))
            distinct_count := col_stats.distinct_count }

/-- `AnalysisContext::try_from_statistics`: create a new analysis context
from column statistics, one boundary per statistics entry in index
order. -/
def AnalysisContext.try_from_statistics (input_schema : Schema)
    (statistics : List ColumnStatistics) : Except String AnalysisContext :=
  (statistics.enum.mapM
      (fun p => ExprBoundaries.try_from_column input_schema p.2 p.1)).map
    AnalysisContext.new

/-- The `columns` local of `analyze`: every column of the predicate,
re-wrapped as a physical expression. -/
def column_exprs (expr : PhysicalExpr) : List PhysicalExpr :=
  (collect_columns expr).map PhysicalExpr.column

/-- The `target_indices_and_boundaries` local of `analyze`: for each
(sub-expression, node index) pair whose sub-expression is a plain column
reference, the interval of the first boundary whose column identity
matches it, skipping pairs with no matching boundary. -/
def target_indices_and_boundaries
    (target_expr_and_indices : List (PhysicalExpr × Nat))
    (target_boundaries : List ExprBoundaries) : List (Nat × Interval) :=
  target_expr_and_indices.filterMap (fun p =>
    target_boundaries.findSome? (fun bound =>
      match p.1 with
      | .column c =>
          if bound.column = c then some (p.2, bound.interval) else none
      | _ => none))

/-- One step of the `try_fold` in `calculate_selectivity`: look up the
initial boundary at the enumerated index (the Rust source indexes
`initial_boundaries[i]`, whose panic is embedded as an error), compute
the cardinality ratio against the refined interval, and multiply it into
the accumulator. -/
def selectivity_step (initial_boundaries : List ExprBoundaries) (acc : ℚ)
    (p : Nat × ExprBoundaries) : Except String ℚ :=
  match initial_boundaries[p.1]? with
  | none => .error "index out of bounds: no initial boundary at the index"
  | some ib =>
    match cardinality_ratio ib.interval p.2.interval with
    | .error e => .error e
    | .ok temp => .ok (acc * temp)

/-- `calculate_selectivity`: exact boolean roots short-circuit to 1 or 0;
otherwise the per-column cardinality ratios are folded into a product. -/
def calculate_selectivity (lower_value upper_value : ScalarValue)
    (target_boundaries initial_boundaries : List ExprBoundaries) :
    Except String ℚ :=
  match lower_value, upper_value with
  | .Boolean (some true), .Boolean (some true) => .ok 1
  | .Boolean (some false), .Boolean (some false) => .ok 0
  | _, _ =>
      target_boundaries.enum.foldlM (selectivity_step initial_boundaries) 1

/-- The body of the `for_each` in `shrink_boundaries`: overwrite the
interval of the first boundary whose column matches the given column. -/
def set_matched_interval (bs : List ExprBoundaries) (column : Column)
    (iv : Interval) : List ExprBoundaries :=
  match bs with
  | [] => []
  | b :: rest =>
    if b.column = column then { b with interval := iv } :: rest
    else b :: set_matched_interval rest column iv

/-- One `for_each` step of `shrink_boundaries`: when the node's
sub-expression is a plain column reference, overwrite the matching
boundary's interval with the graph's refined interval for that node. -/
def refine_bounds (graph : PropagatedGraph) (bs : List ExprBoundaries)
    (p : PhysicalExpr × Nat) : List ExprBoundaries :=
  match p.1 with
  | .column c => set_matched_interval bs c (graph.get_interval p.2)
  | _ => bs

/-- `shrink_boundaries`: on propagation success, refine the boundary
intervals from the graph, locate the predicate's root node, and compute
the selectivity from the root interval and the initial and refined
boundaries. -/
def shrink_boundaries (expr : PhysicalExpr) (graph : PropagatedGraph)
    (target_boundaries : List ExprBoundaries)
    (target_expr_and_indices : List (PhysicalExpr × Nat)) :
    Except String AnalysisContext :=
  let initial_boundaries := target_boundaries
  let shrunk := target_expr_and_indices.foldl (refine_bounds graph)
    target_boundaries
  match (graph.gather_node_indices [expr]).head? with
  | none =>
      .error "The ExprIntervalGraph under investigation does not have any nodes."
  | some rootp =>
    let final_result := graph.get_interval rootp.2
    match calculate_selectivity final_result.lower.value
        final_result.upper.value shrunk initial_boundaries with
    | .error e => .error e
    | .ok selectivity =>
        .ok ((AnalysisContext.new shrunk).with_selectivity selectivity)

/-- `analyze`: attempt to refine the column boundaries in `context` using
`expr` and compute a selectivity value. `try_new` is the propagation
engine's graph constructor (`ExprIntervalGraph::try_new`), passed in as
the external collaborator. -/
def analyze (try_new : PhysicalExpr → Except String ExprIntervalGraph)
    (expr : PhysicalExpr) (context : AnalysisContext) :
    Except String AnalysisContext :=
  let target_boundaries := context.boundaries
  match try_new expr with
  | .error e => .error e
  | .ok graph =>
    let target_expr_and_indices :=
      graph.gather_node_indices (column_exprs expr)
    let seeds :=
      target_indices_and_boundaries target_expr_and_indices target_boundaries
    match graph.update_ranges seeds with
    | .error e => .error e
    | .ok (.Success, pgraph) =>
        shrink_boundaries expr pgraph target_boundaries target_expr_and_indices
    | .ok (.Infeasible, _) =>
        .ok ((AnalysisContext.new target_boundaries).with_selectivity 0)
    | .ok (.CannotPropagate, _) =>
        .ok ((AnalysisContext.new target_boundaries).with_selectivity 1)

/-! Concrete sample data, used by the closed witness theorems below. -/

/-- A sample interval over the integers, 0 to 99, both bounds closed. -/
def sample_interval : Interval :=
  Interval.new (IntervalBound.new_closed (.Int64 (some 0)))
    (IntervalBound.new_closed (.Int64 (some 99)))

/-- A sample column named `a` at ordinal 0. -/
def sample_col : Column := Column.new "a" 0

/-- A sample boundary for `sample_col` over `sample_interval`. -/
def sample_bound : ExprBoundaries :=
  { column := sample_col, interval := sample_interval, distinct_count := .Absent }

/-- A sample context with the single boundary `sample_bound`. -/
def sample_context : AnalysisContext := AnalysisContext.new [sample_bound]

/-- A sample predicate: a bare reference to `sample_col`. -/
def sample_expr : PhysicalExpr := .column sample_col

/-- A sample propagated graph: every listed expression maps to node 0 and
every node reads back `sample_interval`. -/
def sample_pgraph : PropagatedGraph :=
  { gather_node_indices := fun es => es.map (fun e => (e, 0))
    get_interval := fun _ => sample_interval }

/-- A sample engine whose propagation always reports `Infeasible`. -/
def infeasible_graph : ExprIntervalGraph :=
  { gather_node_indices := fun es => es.map (fun e => (e, 0))
    update_ranges := fun _ => .ok (.Infeasible, sample_pgraph) }

/-- Graph constructor returning `infeasible_graph` for any expression. -/
def infeasible_try_new : PhysicalExpr → Except String ExprIntervalGraph :=
  fun _ => .ok infeasible_graph

/-- A sample engine whose propagation always reports `CannotPropagate`. -/
def cannot_graph : ExprIntervalGraph :=
  { gather_node_indices := fun es => es.map (fun e => (e, 0))
    update_ranges := fun _ => .ok (.CannotPropagate, sample_pgraph) }

/-- Graph constructor returning `cannot_graph` for any expression. -/
def cannot_try_new : PhysicalExpr → Except String ExprIntervalGraph :=
  fun _ => .ok cannot_graph

/-- A sample propagated graph with no nodes at all: the node lookup always
comes back empty. -/
def empty_pgraph : PropagatedGraph :=
  { gather_node_indices := fun _ => [], get_interval := fun _ => sample_interval }

/-- The exact boolean-true singleton interval. -/
def true_interval : Interval :=
  Interval.new (IntervalBound.new_closed (.Boolean (some true)))
    (IntervalBound.new_closed (.Boolean (some true)))

/-- A sample propagated graph after a successful propagation: every node
reads back the exact-true interval. -/
def success_pgraph : PropagatedGraph :=
  { gather_node_indices := fun es => es.map (fun e => (e, 0))
    get_interval := fun _ => true_interval }

/-- A sample engine whose propagation always reports `Success`. -/
def success_graph : ExprIntervalGraph :=
  { gather_node_indices := fun es => es.map (fun e => (e, 0))
    update_ranges := fun _ => .ok (.Success, success_pgraph) }

/-- Graph constructor returning `success_graph` for any expression. -/
def success_try_new : PhysicalExpr → Except String ExprIntervalGraph :=
  fun _ => .ok success_graph

/-- A second sample column, named `b` at ordinal 1. -/
def sample_col_b : Column := Column.new "b" 1

/-- A sample boundary for `sample_col_b`. -/
def sample_bound_b : ExprBoundaries :=
  { column := sample_col_b, interval := sample_interval
    distinct_count := .Absent }

/-- A sample context that knows only `sample_col_b`, not `sample_col`. -/
def sample_context_b : AnalysisContext := AnalysisContext.new [sample_bound_b]

/-- A sample interval holding the lower half of `sample_interval`. -/
def sample_interval_half : Interval :=
  Interval.new (IntervalBound.new_closed (.Int64 (some 0)))
    (IntervalBound.new_closed (.Int64 (some 49)))

/-- A sample boundary for `sample_col` over `sample_interval_half`. -/
def sample_bound_half : ExprBoundaries :=
  { column := sample_col, interval := sample_interval_half
    distinct_count := .Absent }

/-- A sample schema with the single Int64 column `a`. -/
def sample_schema : Schema :=
  { fields := [{ name := "a", data_type := .Int64 }] }

/-- Sample statistics for `a`: min 0, max 99, distinct count absent. -/
def sample_stats : ColumnStatistics :=
  { null_count := .Absent, max_value := .Exact (.Int64 (some 99))
    min_value := .Exact (.Int64 (some 0)), distinct_count := .Absent }

/-- A schema whose only field has a data type without a default scalar. -/
def bad_schema : Schema :=
  { fields := [{ name := "a", data_type := .Unsupported "Union" }] }

/-! Helper lemmas shared by the claim theorems. -/

/-- Unfolding lemma for `analyze` once the graph construction succeeded. -/
lemma analyze_eq (try_new : PhysicalExpr → Except String ExprIntervalGraph)
    (expr : PhysicalExpr) (context : AnalysisContext) (g : ExprIntervalGraph)
    (htn : try_new expr = .ok g) :
    analyze try_new expr context =
      match g.update_ranges (target_indices_and_boundaries
          (g.gather_node_indices (column_exprs expr)) context.boundaries) with
      | .error e => .error e
      | .ok (.Success, pgraph) =>
          shrink_boundaries expr pgraph context.boundaries
            (g.gather_node_indices (column_exprs expr))
      | .ok (.Infeasible, _) =>
          .ok ((AnalysisContext.new context.boundaries).with_selectivity 0)
      | .ok (.CannotPropagate, _) =>
          .ok ((AnalysisContext.new context.boundaries).with_selectivity 1) := by
  unfold analyze
  rw [htn]

/-- Any ratio produced by `cardinality_ratio` lies in [0, 1]. -/
lemma cardinality_ratio_bounds {a b : Interval} {r : ℚ}
    (h : cardinality_ratio a b = .ok r) : 0 ≤ r ∧ r ≤ 1 := by
  unfold cardinality_ratio at h
  split at h
  · injection h with h2
    subst h2
    norm_num
  · split at h
    · split at h
      · injection h with h2
        subst h2
        norm_num
      · injection h with h2
        subst h2
        exact ⟨le_min (by norm_num) (le_max_left 0 _), min_le_left 1 _⟩
    · exact Except.noConfusion h
    · exact Except.noConfusion h

/-- One selectivity fold step cannot leave the unit interval. -/
lemma selectivity_step_bounds {initial : List ExprBoundaries} {acc : ℚ}
    {p : Nat × ExprBoundaries} {r : ℚ} (h0 : 0 ≤ acc) (h1 : acc ≤ 1)
    (h : selectivity_step initial acc p = .ok r) : 0 ≤ r ∧ r ≤ 1 := by
  unfold selectivity_step at h
  split at h
  · exact Except.noConfusion h
  · split at h
    · exact Except.noConfusion h
    · rename_i ib hib temp hcr
      injection h with h2
      subst h2
      obtain ⟨ht0, ht1⟩ := cardinality_ratio_bounds hcr
      exact ⟨mul_nonneg h0 ht0, mul_le_one₀ h1 ht0 ht1⟩

/-- The selectivity fold keeps its accumulator inside [0, 1]. -/
lemma fold_selectivity_bounds (initial : List ExprBoundaries) :
    ∀ (t : List (Nat × ExprBoundaries)) (acc s : ℚ), 0 ≤ acc → acc ≤ 1 →
      List.foldlM (selectivity_step initial) acc t = .ok s →
      0 ≤ s ∧ s ≤ 1 := by
  intro t
  induction t with
  | nil =>
    intro acc s h0 h1 h
    injection h with h2
    subst h2
    exact ⟨h0, h1⟩
  | cons p ps ih =>
    intro acc s h0 h1 h
    rw [show List.foldlM (selectivity_step initial) acc (p :: ps) =
          selectivity_step initial acc p >>= fun a2 =>
            List.foldlM (selectivity_step initial) a2 ps from rfl] at h
    cases hst : selectivity_step initial acc p with
    | error e =>
      rw [hst] at h
      exact Except.noConfusion h
    | ok a2 =>
      rw [hst] at h
      simp only [bind, Except.bind] at h
      obtain ⟨ha0, ha1⟩ := selectivity_step_bounds h0 h1 hst
      exact ih a2 s ha0 ha1 h

/-- Any selectivity produced by `calculate_selectivity` lies in [0, 1]. -/
lemma calculate_selectivity_bounds {l u : ScalarValue}
    {target initial : List ExprBoundaries} {s : ℚ}
    (h : calculate_selectivity l u target initial = .ok s) : 0 ≤ s ∧ s ≤ 1 := by
  unfold calculate_selectivity at h
  split at h
  · injection h with h2
    subst h2
    norm_num
  · injection h with h2
    subst h2
    norm_num
  · exact fold_selectivity_bounds initial target.enum 1 s (by norm_num)
      (by norm_num) h

/-- What a successful `shrink_boundaries` returns: the refined boundary
fold, and a selectivity inside [0, 1]. -/
lemma shrink_boundaries_ok {expr : PhysicalExpr} {graph : PropagatedGraph}
    {tb : List ExprBoundaries} {pairs : List (PhysicalExpr × Nat)}
    {res : AnalysisContext}
    (h : shrink_boundaries expr graph tb pairs = .ok res) :
    res.boundaries = pairs.foldl (refine_bounds graph) tb ∧
      ∃ s, res.selectivity = some s ∧ 0 ≤ s ∧ s ≤ 1 := by
  unfold shrink_boundaries at h
  split at h
  · exact Except.noConfusion h
  · dsimp only at h
    split at h
    · exact Except.noConfusion h
    · rename_i rootp hroot s hcalc
      injection h with h2
      subst h2
      exact ⟨rfl, s, rfl, calculate_selectivity_bounds hcalc⟩

/-- Every successful `analyze` run carries a selectivity in [0, 1]. -/
lemma analyze_ok_cases
    {try_new : PhysicalExpr → Except String ExprIntervalGraph}
    {expr : PhysicalExpr} {context : AnalysisContext} {res : AnalysisContext}
    (h : analyze try_new expr context = .ok res) :
    ∃ s, res.selectivity = some s ∧ 0 ≤ s ∧ s ≤ 1 := by
  cases htn : try_new expr with
  | error e => simp [analyze, htn] at h
  | ok g =>
    rw [analyze_eq try_new expr context g htn] at h
    cases hup : g.update_ranges (target_indices_and_boundaries
        (g.gather_node_indices (column_exprs expr)) context.boundaries) with
    | error e =>
      rw [hup] at h
      exact Except.noConfusion h
    | ok pr =>
      obtain ⟨pres, pg⟩ := pr
      rw [hup] at h
      cases pres with
      | Success =>
        obtain ⟨-, s, hsel, hb⟩ := shrink_boundaries_ok h
        exact ⟨s, hsel, hb⟩
      | Infeasible =>
        injection h with h2
        subst h2
        exact ⟨0, rfl, by norm_num⟩
      | CannotPropagate =>
        injection h with h2
        subst h2
        exact ⟨1, rfl, by norm_num⟩

/-- `set_matched_interval` never changes the number of boundaries. -/
lemma set_matched_interval_length (bs : List ExprBoundaries) (c : Column)
    (iv : Interval) : (set_matched_interval bs c iv).length = bs.length := by
  induction bs with
  | nil => rfl
  | cons b rest ih =>
    unfold set_matched_interval
    split
    · rfl
    · simp [ih]

/-- `set_matched_interval` keeps every boundary in place, preserving its
column and distinct count, and leaves boundaries of other columns fully
unchanged. -/
lemma set_matched_interval_get (bs : List ExprBoundaries) (c : Column)
    (iv : Interval) :
    ∀ (j : Nat) (b : ExprBoundaries), bs[j]? = some b →
      ∃ b2, (set_matched_interval bs c iv)[j]? = some b2 ∧
        b2.column = b.column ∧ b2.distinct_count = b.distinct_count ∧
        (b.column ≠ c → b2 = b) := by
  induction bs with
  | nil =>
    intro j b hb
    simp at hb
  | cons x rest ih =>
    intro j b hb
    unfold set_matched_interval
    split
    · rename_i hx
      cases j with
      | zero =>
        simp at hb
        refine ⟨{ x with interval := iv }, by simp, ?_, ?_, ?_⟩
        · rw [← hb]
        · rw [← hb]
        · rw [← hb]
          intro hne
          exact absurd hx hne
      | succ m =>
        simp at hb
        refine ⟨b, ?_, rfl, rfl, fun _ => rfl⟩
        simpa using hb
    · rename_i hx
      cases j with
      | zero =>
        simp at hb
        refine ⟨x, by simp, ?_, ?_, ?_⟩
        · rw [← hb]
        · rw [← hb]
        · intro hne
          rw [← hb]
      | succ m =>
        simp at hb
        obtain ⟨b2, h2, hc2, hd2, he2⟩ := ih m b hb
        exact ⟨b2, by simpa using h2, hc2, hd2, he2⟩

/-- The boundary-refinement fold of `shrink_boundaries` never changes the
number of boundaries. -/
lemma refine_fold_length (graph : PropagatedGraph) :
    ∀ (pairs : List (PhysicalExpr × Nat)) (bs : List ExprBoundaries),
      (pairs.foldl (refine_bounds graph) bs).length = bs.length := by
  intro pairs
  induction pairs with
  | nil => intro bs; rfl
  | cons p ps ih =>
    intro bs
    rw [List.foldl_cons, ih]
    unfold refine_bounds
    split
    · exact set_matched_interval_length bs _ _
    · rfl

/-- The boundary-refinement fold keeps every boundary in place, preserving
its column and distinct count, and passes boundaries whose column matches
no graph node through completely unchanged. -/
lemma refine_fold_get (graph : PropagatedGraph) :
    ∀ (pairs : List (PhysicalExpr × Nat)) (bs : List ExprBoundaries)
      (j : Nat) (b : ExprBoundaries), bs[j]? = some b →
      ∃ b2, (pairs.foldl (refine_bounds graph) bs)[j]? = some b2 ∧
        b2.column = b.column ∧ b2.distinct_count = b.distinct_count ∧
        ((∀ p ∈ pairs, p.1 ≠ PhysicalExpr.column b.column) → b2 = b) := by
  intro pairs
  induction pairs with
  | nil =>
    intro bs j b hb
    exact ⟨b, hb, rfl, rfl, fun _ => rfl⟩
  | cons p ps ih =>
    intro bs j b hb
    rw [List.foldl_cons]
    cases hp : p.1 with
    | column c =>
      have hrb : refine_bounds graph bs p =
          set_matched_interval bs c (graph.get_interval p.2) := by
        unfold refine_bounds
        rw [hp]
      obtain ⟨b1, h1, hc1, hd1, he1⟩ :=
        set_matched_interval_get bs c (graph.get_interval p.2) j b hb
      obtain ⟨b2, h2, hc2, hd2, he2⟩ :=
        ih (refine_bounds graph bs p) j b1 (by rw [hrb]; exact h1)
      refine ⟨b2, h2, hc2.trans hc1, hd2.trans hd1, ?_⟩
      intro hall
      have hpc := hall p (List.mem_cons_self p ps)
      rw [hp] at hpc
      have hcc : b.column ≠ c := by
        intro hcb
        exact hpc (by rw [hcb])
      have hb1 : b1 = b := he1 hcc
      have hb2 : b2 = b1 := by
        apply he2
        intro q hq
        rw [hb1]
        exact hall q (List.mem_cons_of_mem p hq)
      exact hb2.trans hb1
    | literal v =>
      have hrb : refine_bounds graph bs p = bs := by
        unfold refine_bounds
        rw [hp]
      obtain ⟨b2, h2, hc2, hd2, he2⟩ :=
        ih (refine_bounds graph bs p) j b (by rw [hrb]; exact hb)
      exact ⟨b2, h2, hc2, hd2,
        fun hall => he2 (fun q hq => hall q (List.mem_cons_of_mem p hq))⟩
    | binary lhs op rhs =>
      have hrb : refine_bounds graph bs p = bs := by
        unfold refine_bounds
        rw [hp]
      obtain ⟨b2, h2, hc2, hd2, he2⟩ :=
        ih (refine_bounds graph bs p) j b (by rw [hrb]; exact hb)
      exact ⟨b2, h2, hc2, hd2,
        fun hall => he2 (fun q hq => hall q (List.mem_cons_of_mem p hq))⟩

/-- When no boundary's column matches `c`, the per-boundary search of the
seed computation finds nothing. -/
lemma findSome_if_none (c : Column) (k : Nat) :
    ∀ (bounds : List ExprBoundaries), (∀ b ∈ bounds, b.column ≠ c) →
      bounds.findSome? (fun bound =>
        if bound.column = c then some ((k, bound.interval) : Nat × Interval)
        else none) = none := by
  intro bounds
  induction bounds with
  | nil => intro h; rfl
  | cons b rest ih =>
    intro h
    rw [List.findSome?_cons, if_neg (h b (List.mem_cons_self b rest))]
    exact ih (fun q hq => h q (List.mem_cons_of_mem b hq))

/-- Dropping the elements on which a filterMap yields nothing does not
change its result. -/
lemma filterMap_eq_filterMap_filter {α β : Type} (F : α → Option β)
    (q : α → Bool) (hF : ∀ a, q a = false → F a = none) :
    ∀ l : List α, l.filterMap F = (l.filter q).filterMap F := by
  intro l
  induction l with
  | nil => rfl
  | cons a as ih =>
    rw [List.filter_cons]
    cases hq : q a with
    | false =>
      rw [List.filterMap_cons, hF a hq]
      simp only [Bool.false_eq_true, if_false]
      exact ih
    | true =>
      simp only [if_true]
      cases hFa : F a with
      | none =>
        simp only [List.filterMap_cons, hFa]
        exact ih
      | some b =>
        simp only [List.filterMap_cons, hFa]
        rw [ih]

/-- The selectivity fold computes the product of the per-column
cardinality ratios, whenever each ratio computation succeeds. Stated for
an arbitrary enumeration offset `n` so that it can be proved by
induction. -/
lemma fold_selectivity_prod (initial : List ExprBoundaries) :
    ∀ (t : List ExprBoundaries) (n : Nat) (rs : List ℚ) (acc : ℚ),
      List.Forall₂
        (fun p ρ => cardinality_ratio p.1.interval p.2.interval = Except.ok ρ)
        ((initial.drop n).zip t) rs →
      t.length ≤ (initial.drop n).length →
      List.foldlM (selectivity_step initial) acc (t.enumFrom n) =
        .ok (acc * rs.prod) := by
  intro t
  induction t with
  | nil =>
    intro n rs acc hr hlen
    rw [List.zip_nil_right] at hr
    cases hr
    rw [show ([] : List ExprBoundaries).enumFrom n = [] from rfl]
    show (Except.ok acc : Except String ℚ) = .ok (acc * [].prod)
    rw [List.prod_nil, mul_one]
  | cons b bs ih =>
    intro n rs acc hr hlen
    cases hdrop : initial.drop n with
    | nil =>
      rw [hdrop] at hlen
      simp at hlen
    | cons ib rest =>
      rw [hdrop] at hr hlen
      rw [List.zip_cons_cons] at hr
      cases hr with
      | cons hR hr2 =>
        rename_i ρ ρs
        have hget : initial[n]? = some ib := by
          have h0 := List.getElem?_drop initial n 0
          rw [hdrop] at h0
          simpa using h0.symm
        have hrest : initial.drop (n + 1) = rest := by
          have h1 : initial.drop (n + 1) = (initial.drop n).drop 1 :=
            (List.drop_drop 1 n initial).symm
          rw [h1, hdrop]
          rfl
        have hstep : selectivity_step initial acc (n, b) = .ok (acc * ρ) := by
          simp [selectivity_step, hget, hR]
        rw [show (b :: bs).enumFrom n = (n, b) :: bs.enumFrom (n + 1) from rfl]
        rw [show List.foldlM (selectivity_step initial) acc
              ((n, b) :: bs.enumFrom (n + 1)) =
            selectivity_step initial acc (n, b) >>= fun a2 =>
              List.foldlM (selectivity_step initial) a2 (bs.enumFrom (n + 1))
            from rfl]
        rw [hstep]
        simp only [bind, Except.bind]
        rw [ih (n + 1) ρs (acc * ρ) (by rw [hrest]; exact hr2)
          (by rw [hrest]; simpa using hlen)]
        rw [List.prod_cons, mul_assoc]

/-- When the root interval is not an exact boolean singleton,
`calculate_selectivity` takes the general fold branch. -/
lemma calculate_selectivity_general (l u : ScalarValue)
    (t i : List ExprBoundaries)
    (h1 : ¬(l = .Boolean (some true) ∧ u = .Boolean (some true)))
    (h2 : ¬(l = .Boolean (some false) ∧ u = .Boolean (some false))) :
    calculate_selectivity l u t i =
      List.foldlM (selectivity_step i) 1 t.enum := by
  unfold calculate_selectivity
  split
  · exact absurd ⟨rfl, rfl⟩ h1
  · exact absurd ⟨rfl, rfl⟩ h2
  · rfl

/-- Indexing into an enumeration: the entry at position `i` is the
original element paired with `n + i`. -/
lemma enumFrom_get {α : Type} (l : List α) :
    ∀ (n i : Nat) (a : α), l[i]? = some a →
      (l.enumFrom n)[i]? = some (n + i, a) := by
  induction l with
  | nil =>
    intro n i a h
    simp at h
  | cons x xs ih =>
    intro n i a h
    cases i with
    | zero =>
      simp at h
      rw [show (x :: xs).enumFrom n = (n, x) :: xs.enumFrom (n + 1) from rfl]
      simp [h]
    | succ m =>
      simp at h
      rw [show (x :: xs).enumFrom n = (n, x) :: xs.enumFrom (n + 1) from rfl]
      have h2 := ih (n + 1) m a h
      rw [show ((n, x) :: xs.enumFrom (n + 1))[m + 1]? =
            (xs.enumFrom (n + 1))[m]? from by simp]
      rw [h2, show n + 1 + m = n + (m + 1) by omega]

/-- A successful `mapM` over `Except` has one output per input, in order,
each produced by a successful application of the function. -/
lemma mapM_ok_length_and_get {α β : Type} {f : α → Except String β} :
    ∀ (l : List α) (ys : List β), l.mapM f = .ok ys →
      ys.length = l.length ∧
      ∀ (i : Nat) (a : α), l[i]? = some a →
        ∃ b, ys[i]? = some b ∧ f a = .ok b := by
  intro l
  induction l with
  | nil =>
    intro ys h
    rw [List.mapM_nil] at h
    injection h with h2
    subst h2
    exact ⟨rfl, fun i a ha => by simp at ha⟩
  | cons x xs ih =>
    intro ys h
    rw [List.mapM_cons] at h
    cases hfx : f x with
    | error e =>
      rw [hfx] at h
      simp only [bind, Except.bind] at h
      exact Except.noConfusion h
    | ok y =>
      rw [hfx] at h
      simp only [bind, Except.bind] at h
      cases hxs : xs.mapM f with
      | error e =>
        rw [hxs] at h
        exact Except.noConfusion h
      | ok ys2 =>
        rw [hxs] at h
        simp only [bind, Except.bind, pure, Except.pure] at h
        injection h with h2
        subst h2
        obtain ⟨hlen, hget⟩ := ih ys2 hxs
        constructor
        · simp [hlen]
        · intro i a ha
          cases i with
          | zero =>
            simp at ha
            subst ha
            exact ⟨y, by simp, hfx⟩
          | succ m =>
            simp at ha
            obtain ⟨b, hb1, hb2⟩ := hget m a ha
            exact ⟨b, by simpa using hb1, hb2⟩

/-- If every statistics entry converts successfully at its (offset)
index, the enumerated `mapM` of `try_from_statistics` succeeds. -/
lemma mapM_enumFrom_ok (schema : Schema) :
    ∀ (stats : List ColumnStatistics) (n : Nat),
      (∀ (i : Nat) (s : ColumnStatistics), stats[i]? = some s →
        ∃ b, ExprBoundaries.try_from_column schema s (n + i) = .ok b) →
      ∃ ys, (stats.enumFrom n).mapM
          (fun p => ExprBoundaries.try_from_column schema p.2 p.1) = .ok ys := by
  intro stats
  induction stats with
  | nil =>
    intro n h
    refine ⟨[], ?_⟩
    rw [show ([] : List ColumnStatistics).enumFrom n = [] from rfl,
      List.mapM_nil]
    rfl
  | cons st sts ih =>
    intro n h
    obtain ⟨b, hb⟩ := h 0 st (by simp)
    have hb2 : ExprBoundaries.try_from_column schema st n = .ok b := by
      simpa using hb
    obtain ⟨ys, hys⟩ := ih (n + 1) (fun i s hs => by
      have h3 := h (i + 1) s (by simpa using hs)
      rwa [show n + (i + 1) = n + 1 + i by omega] at h3)
    refine ⟨b :: ys, ?_⟩
    rw [show (st :: sts).enumFrom n = (n, st) :: sts.enumFrom (n + 1)
      from rfl, List.mapM_cons]
    simp only []
    rw [hb2]
    simp only [bind, Except.bind]
    rw [hys]
    rfl

/-! Claim theorems. -/

/-- C1: for every predicate expression and analysis context, when
propagation reports `Infeasible`, `analyze` returns the original boundary
sequence exactly unchanged with selectivity exactly 0; when propagation
reports `CannotPropagate`, it returns the original boundary sequence
exactly unchanged with selectivity exactly 1. -/
theorem analyze_infeasible_and_cannot_propagate
    (try_new : PhysicalExpr → Except String ExprIntervalGraph)
    (expr : PhysicalExpr) (context : AnalysisContext)
    (g : ExprIntervalGraph) (pg : PropagatedGraph)
    (htn : try_new expr = .ok g) :
    (g.update_ranges (target_indices_and_boundaries
        (g.gather_node_indices (column_exprs expr)) context.boundaries) =
          .ok (.Infeasible, pg) →
      analyze try_new expr context =
        .ok { boundaries := context.boundaries, selectivity := some 0 }) ∧
    (g.update_ranges (target_indices_and_boundaries
        (g.gather_node_indices (column_exprs expr)) context.boundaries) =
          .ok (.CannotPropagate, pg) →
      analyze try_new expr context =
        .ok { boundaries := context.boundaries, selectivity := some 1 }) := by
  constructor <;> intro hup <;>
    rw [analyze_eq try_new expr context g htn, hup] <;> exact rfl

/-- Witness for C1 at concrete inputs: the infeasible half, applied to the
sample context and an engine that reports `Infeasible`. -/
theorem analyze_infeasible_and_cannot_propagate_witness :
    infeasible_try_new sample_expr = .ok infeasible_graph ∧
    analyze infeasible_try_new sample_expr sample_context =
      .ok { boundaries := [sample_bound], selectivity := some 0 } :=
  ⟨rfl, (analyze_infeasible_and_cannot_propagate infeasible_try_new sample_expr
      sample_context infeasible_graph sample_pgraph rfl).1 rfl⟩

/-- C2: an exact boolean-singleton root short-circuits
`calculate_selectivity`: `[true, true]` yields exactly 1 and
`[false, false]` yields exactly 0, for every pair of refined and original
boundary sequences (no per-column ratio is consulted). -/
theorem calculate_selectivity_exact_bool
    (target_boundaries initial_boundaries : List ExprBoundaries) :
    calculate_selectivity (.Boolean (some true)) (.Boolean (some true))
        target_boundaries initial_boundaries = .ok 1 ∧
    calculate_selectivity (.Boolean (some false)) (.Boolean (some false))
        target_boundaries initial_boundaries = .ok 0 :=
  ⟨rfl, rfl⟩

/-- C9: when the root of the predicate cannot be located in the propagated
graph, `shrink_boundaries` fails with the distinct internal-consistency
error rather than returning a context. -/
theorem shrink_boundaries_missing_root_error
    (expr : PhysicalExpr) (graph : PropagatedGraph)
    (target_boundaries : List ExprBoundaries)
    (target_expr_and_indices : List (PhysicalExpr × Nat))
    (h : graph.gather_node_indices [expr] = []) :
    shrink_boundaries expr graph target_boundaries target_expr_and_indices =
      .error
        "The ExprIntervalGraph under investigation does not have any nodes." := by
  unfold shrink_boundaries
  rw [h]
  exact rfl

/-- Witness for C9 at concrete inputs: a propagated graph with an empty
node lookup. -/
theorem shrink_boundaries_missing_root_error_witness :
    empty_pgraph.gather_node_indices [sample_expr] = [] ∧
    shrink_boundaries sample_expr empty_pgraph [sample_bound] [] =
      .error
        "The ExprIntervalGraph under investigation does not have any nodes." :=
  ⟨rfl, shrink_boundaries_missing_root_error sample_expr empty_pgraph
      [sample_bound] [] rfl⟩

/-- C4: whenever `analyze` succeeds, the selectivity it returns lies in
the closed range [0, 1]. -/
theorem analyze_selectivity_in_unit_range
    (try_new : PhysicalExpr → Except String ExprIntervalGraph)
    (expr : PhysicalExpr) (context res : AnalysisContext)
    (h : analyze try_new expr context = .ok res) :
    ∃ s, res.selectivity = some s ∧ 0 ≤ s ∧ s ≤ 1 :=
  analyze_ok_cases h

/-- Witness for C4 at concrete inputs: the sample `CannotPropagate`
engine. -/
theorem analyze_selectivity_in_unit_range_witness :
    analyze cannot_try_new sample_expr sample_context =
      .ok { boundaries := [sample_bound], selectivity := some 1 } ∧
    ∃ s, ({ boundaries := [sample_bound], selectivity := some 1 } :
        AnalysisContext).selectivity = some s ∧ 0 ≤ s ∧ s ≤ 1 :=
  ⟨rfl, analyze_selectivity_in_unit_range cannot_try_new sample_expr
      sample_context _ rfl⟩

/-- C10: whenever `analyze` returns successfully, the resulting context's
selectivity field is set — never absent — whichever propagation branch was
taken. -/
theorem analyze_always_sets_selectivity
    (try_new : PhysicalExpr → Except String ExprIntervalGraph)
    (expr : PhysicalExpr) (context res : AnalysisContext)
    (h : analyze try_new expr context = .ok res) :
    res.selectivity.isSome = true := by
  obtain ⟨s, hs, -⟩ := analyze_ok_cases h
  rw [hs]
  rfl

/-- C5: on the `Success` propagation branch, the boundary sequence
returned by `analyze` has the same length and order as the input; every
boundary keeps its column identity and distinct count, and a boundary
whose column matches no graph node passes through completely unchanged
(only matched boundaries can differ, and then only in their interval). -/
theorem analyze_success_frame
    (try_new : PhysicalExpr → Except String ExprIntervalGraph)
    (expr : PhysicalExpr) (context : AnalysisContext)
    (g : ExprIntervalGraph) (pg : PropagatedGraph) (res : AnalysisContext)
    (htn : try_new expr = .ok g)
    (hup : g.update_ranges (target_indices_and_boundaries
        (g.gather_node_indices (column_exprs expr)) context.boundaries) =
          .ok (.Success, pg))
    (h : analyze try_new expr context = .ok res) :
    res.boundaries.length = context.boundaries.length ∧
    ∀ (j : Nat) (b : ExprBoundaries), context.boundaries[j]? = some b →
      ∃ b2, res.boundaries[j]? = some b2 ∧
        b2.column = b.column ∧ b2.distinct_count = b.distinct_count ∧
        ((∀ p ∈ g.gather_node_indices (column_exprs expr),
            p.1 ≠ PhysicalExpr.column b.column) → b2 = b) := by
  rw [analyze_eq try_new expr context g htn, hup] at h
  obtain ⟨hbs, -⟩ := shrink_boundaries_ok h
  constructor
  · rw [hbs]
    exact refine_fold_length pg _ _
  · intro j b hb
    obtain ⟨b2, h2, hc, hd, he⟩ :=
      refine_fold_get pg (g.gather_node_indices (column_exprs expr))
        context.boundaries j b hb
    refine ⟨b2, ?_, hc, hd, he⟩
    rw [hbs]
    exact h2

/-- C3: when the propagated root interval is not a boolean singleton, the
computed selectivity equals the product, over every column index, of the
cardinality ratio of the original interval to the refined interval at
that index; in particular a column whose interval did not shrink
contributes a ratio of exactly 1 and hence does not affect the overall
product. -/
theorem calculate_selectivity_general_product
    (l u : ScalarValue) (target initial : List ExprBoundaries) (rs : List ℚ)
    (hlen : target.length ≤ initial.length)
    (h1 : ¬(l = .Boolean (some true) ∧ u = .Boolean (some true)))
    (h2 : ¬(l = .Boolean (some false) ∧ u = .Boolean (some false)))
    (hr : List.Forall₂
        (fun p ρ => cardinality_ratio p.1.interval p.2.interval = Except.ok ρ)
        (initial.zip target) rs) :
    calculate_selectivity l u target initial = .ok rs.prod ∧
    ∀ iv : Interval, cardinality_ratio iv iv = .ok 1 := by
  constructor
  · rw [calculate_selectivity_general l u target initial h1 h2]
    have h := fold_selectivity_prod initial target 0 rs 1
      (by simpa using hr) (by simpa using hlen)
    rw [show target.enum = target.enumFrom 0 from rfl, h, one_mul]
  · intro iv
    unfold cardinality_ratio
    rw [if_pos rfl]

/-- Witness for C3 at concrete inputs: one column whose interval halved,
root interval not a boolean singleton; the selectivity is the singleton
ratio product 1/2. -/
theorem calculate_selectivity_general_product_witness :
    calculate_selectivity (.Int64 none) (.Int64 none)
        [sample_bound_half] [sample_bound] = .ok ([(1 : ℚ)/2].prod) ∧
    cardinality_ratio sample_interval sample_interval = .ok 1 := by
  have h := calculate_selectivity_general_product (.Int64 none) (.Int64 none)
    [sample_bound_half] [sample_bound] [(1 : ℚ)/2] (by decide) (by decide)
    (by decide)
    (List.Forall₂.cons
      (by
        show cardinality_ratio sample_bound.interval
            sample_bound_half.interval = Except.ok (1/2)
        unfold cardinality_ratio Interval.cardinality sample_bound
          sample_bound_half sample_interval sample_interval_half Interval.new
          IntervalBound.new_closed
        norm_num)
      List.Forall₂.nil)
  exact ⟨h.1, h.2 sample_interval⟩

/-- C7: for an ordinal within the schema's field list, `try_from_column`
produces a boundary whose interval has a closed lower bound equal to the
statistics' min value when present (else the type's default/empty
scalar), a closed upper bound likewise from the max value, and the
distinct count copied unchanged; it fails exactly when the field's data
type cannot yield a default scalar. -/
theorem try_from_column_from_stats
    (schema : Schema) (col_stats : ColumnStatistics) (col_index : Nat)
    (field : Field) (hf : schema.fields[col_index]? = some field) :
    (∀ b, ExprBoundaries.try_from_column schema col_stats col_index = .ok b →
      ∃ empty_field, ScalarValue.tryFrom field.data_type = .ok empty_field ∧
        b.interval.lower =
          IntervalBound.new_closed
            ((Precision.get_value col_stats.min_value).getD empty_field) ∧
        b.interval.upper =
          IntervalBound.new_closed
            ((Precision.get_value col_stats.max_value).getD empty_field) ∧
        b.distinct_count = col_stats.distinct_count ∧
        b.column = Column.new field.name col_index) ∧
    (ExprBoundaries.try_from_column schema col_stats col_index).isOk =
      (ScalarValue.tryFrom field.data_type).isOk := by
  cases htf : ScalarValue.tryFrom field.data_type with
  | error e =>
    constructor
    · intro b hb
      simp only [ExprBoundaries.try_from_column, hf, htf] at hb
      exact Except.noConfusion hb
    · simp only [ExprBoundaries.try_from_column, hf, htf]
      rfl
  | ok v =>
    constructor
    · intro b hb
      simp only [ExprBoundaries.try_from_column, hf, htf] at hb
      injection hb with hb2
      subst hb2
      exact ⟨v, rfl, rfl, rfl, rfl, rfl⟩
    · simp only [ExprBoundaries.try_from_column, hf, htf]
      rfl

/-- Witness for C7 at concrete inputs: the sample one-column Int64 schema
and its statistics. -/
theorem try_from_column_from_stats_witness :
    sample_schema.fields[0]? = some { name := "a", data_type := .Int64 } ∧
    (ExprBoundaries.try_from_column sample_schema sample_stats 0).isOk =
      (ScalarValue.tryFrom DataType.Int64).isOk :=
  ⟨rfl, (try_from_column_from_stats sample_schema sample_stats 0
      { name := "a", data_type := .Int64 } rfl).2⟩

/-- C8 counterexample: a schema and statistics sequence of equal length
(every statistics index has a corresponding schema field), on which
`try_from_statistics` nevertheless fails, because the field's data type
cannot yield a default scalar. This refutes the claim that alignment of
indices alone guarantees a context is produced. -/
theorem try_from_statistics_not_total :
    bad_schema.fields.length = [sample_stats].length ∧
    (AnalysisContext.try_from_statistics bad_schema [sample_stats]).isOk =
      false := by
  decide

/-- C8 (amended): `try_from_statistics` returns a context with exactly
one boundary per statistics entry, in index order, with selectivity
unset, whenever every statistics index has a corresponding schema field
whose data type yields a default scalar (i.e. each per-column conversion
succeeds); when the statistics sequence is longer than the schema's field
list, the call fails rather than producing a context. -/
theorem try_from_statistics_amended (schema : Schema)
    (stats : List ColumnStatistics) :
    ((∀ (i : Nat) (s : ColumnStatistics), stats[i]? = some s →
        ∃ b, ExprBoundaries.try_from_column schema s i = .ok b) →
      ∃ res, AnalysisContext.try_from_statistics schema stats = .ok res ∧
        res.selectivity = none ∧
        res.boundaries.length = stats.length ∧
        ∀ (i : Nat) (s : ColumnStatistics), stats[i]? = some s →
          ∃ b, res.boundaries[i]? = some b ∧
            ExprBoundaries.try_from_column schema s i = .ok b) ∧
    (schema.fields.length < stats.length →
      (AnalysisContext.try_from_statistics schema stats).isOk = false) := by
  constructor
  · intro hok
    obtain ⟨ys, hys⟩ := mapM_enumFrom_ok schema stats 0
      (fun i s hs => by simpa using hok i s hs)
    refine ⟨AnalysisContext.new ys, ?_, rfl, ?_, ?_⟩
    · unfold AnalysisContext.try_from_statistics
      rw [show stats.enum = stats.enumFrom 0 from rfl, hys]
      rfl
    · have hl := (mapM_ok_length_and_get (stats.enumFrom 0) ys hys).1
      rw [show (AnalysisContext.new ys).boundaries = ys from rfl, hl]
      simp
    · intro i s hs
      have hi := enumFrom_get stats 0 i s hs
      obtain ⟨b, hb1, hb2⟩ :=
        (mapM_ok_length_and_get (stats.enumFrom 0) ys hys).2 i (0 + i, s) hi
      refine ⟨b, hb1, ?_⟩
      simpa using hb2
  · intro hlt
    cases hres : AnalysisContext.try_from_statistics schema stats with
    | error e => rfl
    | ok res =>
      exfalso
      unfold AnalysisContext.try_from_statistics at hres
      cases hmm : stats.enum.mapM
          (fun p => ExprBoundaries.try_from_column schema p.2 p.1) with
      | error e =>
        rw [hmm] at hres
        exact Except.noConfusion hres
      | ok ys =>
        have hs : stats[schema.fields.length]? =
            some stats[schema.fields.length] :=
          List.getElem?_eq_getElem hlt
        have hi := enumFrom_get stats 0 schema.fields.length _ hs
        obtain ⟨b, hb1, hb2⟩ :=
          (mapM_ok_length_and_get stats.enum ys hmm).2 schema.fields.length
            (0 + schema.fields.length, stats[schema.fields.length])
            (by rw [show stats.enum = stats.enumFrom 0 from rfl]; exact hi)
        have hb3 : ExprBoundaries.try_from_column schema
            stats[schema.fields.length] schema.fields.length = .ok b := by
          simpa using hb2
        unfold ExprBoundaries.try_from_column at hb3
        rw [List.getElem?_eq_none (le_refl schema.fields.length)] at hb3
        exact Except.noConfusion hb3

/-- Witness for the amended C8 at concrete inputs: the sample one-column
schema and statistics, on which every conversion succeeds. -/
theorem try_from_statistics_amended_witness :
    (∀ (i : Nat) (s : ColumnStatistics),
      ([sample_stats] : List ColumnStatistics)[i]? = some s →
      ∃ b, ExprBoundaries.try_from_column sample_schema s i = .ok b) ∧
    ∃ res, AnalysisContext.try_from_statistics sample_schema [sample_stats] =
        .ok res ∧
      res.selectivity = none ∧
      res.boundaries.length = ([sample_stats] : List ColumnStatistics).length ∧
      ∀ (i : Nat) (s : ColumnStatistics),
        ([sample_stats] : List ColumnStatistics)[i]? = some s →
        ∃ b, res.boundaries[i]? = some b ∧
          ExprBoundaries.try_from_column sample_schema s i = .ok b := by
  have hok : ∀ (i : Nat) (s : ColumnStatistics),
      ([sample_stats] : List ColumnStatistics)[i]? = some s →
      ∃ b, ExprBoundaries.try_from_column sample_schema s i = .ok b := by
    intro i s hs
    cases i with
    | zero =>
      simp at hs
      rw [← hs]
      exact ⟨_, rfl⟩
    | succ m =>
      simp at hs
  exact ⟨hok,
    (try_from_statistics_amended sample_schema [sample_stats]).1 hok⟩

/-- C6: a column reference of the predicate with no matching boundary
entry (name and ordinal both) contributes no seed binding — filtering all
such references out of the node list leaves the seed bindings unchanged —
and the mismatch is not an error: `analyze` still succeeds (shown here on
a propagation run that reports `CannotPropagate`). -/
theorem analyze_skips_unmatched_columns
    (try_new : PhysicalExpr → Except String ExprIntervalGraph)
    (expr : PhysicalExpr) (context : AnalysisContext) (c : Column)
    (g : ExprIntervalGraph) (pg : PropagatedGraph)
    (htn : try_new expr = .ok g)
    (hc : ∀ b ∈ context.boundaries, b.column ≠ c) :
    target_indices_and_boundaries (g.gather_node_indices (column_exprs expr))
        context.boundaries =
      target_indices_and_boundaries
        ((g.gather_node_indices (column_exprs expr)).filter
          (fun p => decide (p.1 ≠ PhysicalExpr.column c)))
        context.boundaries ∧
    (g.update_ranges (target_indices_and_boundaries
        (g.gather_node_indices (column_exprs expr)) context.boundaries) =
          .ok (.CannotPropagate, pg) →
      analyze try_new expr context =
        .ok { boundaries := context.boundaries, selectivity := some 1 }) := by
  constructor
  · apply filterMap_eq_filterMap_filter
    intro p hq
    have hp : p.1 = PhysicalExpr.column c := by simpa using hq
    obtain ⟨pe, pi⟩ := p
    simp only at hp
    subst hp
    exact findSome_if_none c pi context.boundaries hc
  · intro hup
    rw [analyze_eq try_new expr context g htn, hup]
    exact rfl

/-- Witness for C6 at concrete inputs: the predicate references column
`a`, the context only knows column `b`, and analysis still succeeds. -/
theorem analyze_skips_unmatched_columns_witness :
    (∀ b ∈ sample_context_b.boundaries, b.column ≠ sample_col) ∧
    analyze cannot_try_new sample_expr sample_context_b =
      .ok { boundaries := [sample_bound_b], selectivity := some 1 } :=
  ⟨by decide, (analyze_skips_unmatched_columns cannot_try_new sample_expr
      sample_context_b sample_col cannot_graph sample_pgraph rfl
      (by decide)).2 rfl⟩

/-- Witness for C5 at concrete inputs: the sample `Success` engine, whose
propagation refines the matched column `a` and leaves nothing else. -/
theorem analyze_success_frame_witness :
    analyze success_try_new sample_expr sample_context =
      .ok { boundaries := [{ column := sample_col
                             interval := true_interval
                             distinct_count := .Absent }],
            selectivity := some 1 } ∧
    ({ boundaries := [{ column := sample_col
                        interval := true_interval
                        distinct_count := .Absent }],
       selectivity := some 1 } : AnalysisContext).boundaries.length =
      sample_context.boundaries.length :=
  ⟨rfl, (analyze_success_frame success_try_new sample_expr sample_context
      success_graph success_pgraph _ rfl rfl rfl).1⟩

/-- Witness for C10 at concrete inputs: the sample `Infeasible` engine. -/
theorem analyze_always_sets_selectivity_witness :
    analyze infeasible_try_new sample_expr sample_context =
      .ok { boundaries := [sample_bound], selectivity := some 0 } ∧
    (some (0 : ℚ)).isSome = true :=
  ⟨rfl, analyze_always_sets_selectivity infeasible_try_new sample_expr
      sample_context _ rfl⟩

end DFAnalysis
